import Mathlib

/-!
Verification development for the Warhammer 40k roster optimizer
(`parse_json.py`).  The Python source is shallowly embedded: every
function below mirrors the control flow of the Python function of the
same (snake_case) name.  Python strings are modelled as `List Char`
(with `String` wrappers at the API boundary), Python dicts that are
used as insertion-ordered maps are modelled as association lists, and
Python's `dict.get(k, d)` is modelled with `Option` fields plus `getD`.
The regular expressions `REROLL_REGEX` and `MODIFIER_PATTERNS` are
embedded as explicit backtracking matchers with `re.finditer`'s
leftmost, non-overlapping scan semantics.
-/

namespace W40K

/-! ## Python string primitives -/

/-- One character of Python `str.lower()` (ASCII range, which covers the
mined vocabulary: patterns and markers are ASCII). -/
def lowerChar (c : Char) : Char :=
  if 65 ≤ c.toNat ∧ c.toNat ≤ 90 then Char.ofNat (c.toNat + 32) else c

/-- Python `str.lower()`. -/
def lowerStr (s : List Char) : List Char := s.map lowerChar

/-- The characters Python's `\s` (and `str.strip()`) treats as whitespace
in the ASCII range. -/
def isPySpace (c : Char) : Bool :=
  decide (c.toNat = 32 ∨ c.toNat = 9 ∨ c.toNat = 10 ∨ c.toNat = 13 ∨
          c.toNat = 11 ∨ c.toNat = 12)

/-- The characters matched by `\d` (ASCII digits; the mined texts are ASCII). -/
def isDigitCh (c : Char) : Bool := decide (48 ≤ c.toNat ∧ c.toNat ≤ 57)

/-- The character class `[a-z']` from `REROLL_REGEX` (39 is the apostrophe). -/
def isWordChar (c : Char) : Bool :=
  decide ((97 ≤ c.toNat ∧ c.toNat ≤ 122) ∨ c.toNat = 39)

/-- The characters of a string literal. -/
def strChars (s : String) : List Char := s.data

/-- Does `hay` start with `needle`? -/
def startsWithChars : List Char → List Char → Bool
  | _, [] => true
  | [], _ :: _ => false
  | c :: cs, n :: ns => c = n && startsWithChars cs ns

/-- Python's substring test `needle in hay`. -/
def containsSub (hay needle : List Char) : Bool :=
  match hay with
  | [] => startsWithChars [] needle
  | c :: rest => startsWithChars (c :: rest) needle || containsSub rest needle

/-- Match a literal, returning the rest of the input on success. -/
def matchLit : List Char → List Char → Option (List Char)
  | [], cs => some cs
  | _ :: _, [] => none
  | l :: ls, c :: cs => if c = l then matchLit ls cs else none

/-- Match `\s+` (greedy; the following tokens in every embedded pattern
start with a non-space, so greediness is exact). -/
def matchSpaces1 : List Char → Option (List Char)
  | [] => none
  | c :: rest => if isPySpace c then some (rest.dropWhile isPySpace) else none

/-- Decimal value of a digit string (Python `int` on a `\d+` capture). -/
def digitsToNat (ds : List Char) : Nat :=
  ds.foldl (fun n c => 10 * n + (c.toNat - 48)) 0

/-- Python `str.strip()`. -/
def pyStrip (s : List Char) : List Char :=
  ((s.dropWhile isPySpace).reverse.dropWhile isPySpace).reverse

/-- First-match-wins lookup in an insertion-ordered association list
(Python `dict.get` / `in` on dicts built by the embedding). -/
def alookup {β : Type} (k : String) : List (String × β) → Option β
  | [] => none
  | e :: rest => if e.1 = k then some e.2 else alookup k rest

/-- Membership test for a string list (Python `x in list`). -/
def elemStr (x : String) : List String → Bool
  | [] => false
  | y :: ys => y = x || elemStr x ys

/-! ## `re.finditer` -/

/-- Worker for `scanMatches`, structurally recursive on a fuel bound so
that the kernel can evaluate it; every step advances by at least one
character, so the initial fuel (the input length) is never exhausted. -/
def scanMatchesGo {α : Type} (matchAt : List Char → Option (Nat × α)) :
    Nat → List Char → List α
  | 0, _ => []
  | _ + 1, [] => []
  | fuel + 1, c :: cs =>
    match matchAt (c :: cs) with
    | some (n, a) => a :: scanMatchesGo matchAt fuel (cs.drop (n - 1))
    | none => scanMatchesGo matchAt fuel cs

/-- Leftmost, non-overlapping scan of an anchored matcher over the whole
input: `matchAt` returns the number of characters a match starting at the
given position consumes, plus a payload.  This is `re.finditer` for the
matchers below (none of which can match the empty string). -/
def scanMatches {α : Type} (matchAt : List Char → Option (Nat × α))
    (cs : List Char) : List α :=
  scanMatchesGo matchAt cs.length cs

/-! ## `REROLL_REGEX`

`re-?roll(?: [a-z']+)* (?P<type>hit|wound|damage) roll(?:s)?(?: of (?P<ones>1s?|ones))?`
(compiled with `re.IGNORECASE`, but only ever run on already-lowercased
text, so lowercase literals are exact). -/

/-- The alternation `(?P<type>hit|wound|damage)`. -/
def tryRollType (cs : List Char) : Option (String × List Char) :=
  match matchLit (strChars "hit") cs with
  | some r => some ("hit", r)
  | none =>
    match matchLit (strChars "wound") cs with
    | some r => some ("wound", r)
    | none =>
      match matchLit (strChars "damage") cs with
      | some r => some ("damage", r)
      | none => none

/-- The optional suffix `(?: of (?P<ones>1s?|ones))?` (greedy; it is the
last piece of the pattern, so a failed attempt just consumes nothing). -/
def rerollOnesOpt (cs : List Char) : List Char :=
  match matchLit (strChars " of ") cs with
  | some r =>
    match r with
    | '1' :: r2 => (match r2 with | 's' :: r3 => r3 | _ => r2)
    | _ =>
      match matchLit (strChars "ones") r with
      | some r2 => r2
      | none => cs
  | none => cs

/-- The mandatory tail ` (hit|wound|damage) roll(?:s)?(?: of (1s?|ones))?`,
returning the rest of the input and the captured type. -/
def rerollTail (cs : List Char) : Option (List Char × String) :=
  match cs with
  | ' ' :: rest =>
    match tryRollType rest with
    | some (ty, rest2) =>
      match matchLit (strChars " roll") rest2 with
      | some rest3 =>
        let rest4 := match rest3 with | 's' :: r => r | _ => rest3
        some (rerollOnesOpt rest4, ty)
      | none => none
    | none => none
  | _ => none

/-- Worker for `rerollStarTail`, structurally recursive on a fuel bound
(each star iteration consumes at least two characters, so the initial
fuel — the input length — is never exhausted). -/
def rerollStarTailGo : Nat → List Char → Option (List Char × String)
  | 0, cs => rerollTail cs
  | fuel + 1, cs =>
    match cs with
    | ' ' :: c2 :: rest2 =>
      if isWordChar c2 then
        match rerollStarTailGo fuel (rest2.dropWhile isWordChar) with
        | some r => some r
        | none => rerollTail (' ' :: c2 :: rest2)
      else rerollTail (' ' :: c2 :: rest2)
    | _ => rerollTail cs

/-- The greedy star `(?: [a-z']+)*` followed by `rerollTail`, with the
backtracking order of the `re` engine: more iterations are tried first. -/
def rerollStarTail (cs : List Char) : Option (List Char × String) :=
  rerollStarTailGo cs.length cs

/-- The head `re-?roll` (no backtracking is needed for `-?`: the following
literal starts with `r`, never `-`). -/
def rerollHead (cs : List Char) : Option (List Char) :=
  match matchLit (strChars "re") cs with
  | some r =>
    match r with
    | '-' :: r2 => matchLit (strChars "roll") r2
    | _ => matchLit (strChars "roll") r
  | none => none

/-- Anchored `REROLL_REGEX` match: consumed length plus
(`match.group(0)`, `match.group("type")`). -/
def rerollMatchAt (cs : List Char) : Option (Nat × (List Char × String)) :=
  match rerollHead cs with
  | some r =>
    match rerollStarTail r with
    | some (rest, ty) =>
      let n := cs.length - rest.length
      some (n, (cs.take n, ty))
    | none => none
  | none => none

/-- `REROLL_REGEX.finditer`. -/
def rerollFindIter (cs : List Char) : List (List Char × String) :=
  scanMatches rerollMatchAt cs

/-! ## `MODIFIER_PATTERNS`

Six patterns, each with a sign multiplier:
`add\s+(\d+)\s+to\s+(?:the\s+)?(hit|wound) roll` (+1),
the same with `rolls` (+1),
`improve\s+(?:the\s+)?(hit|wound) roll(?:s)? by\s+(\d+)` (+1),
`subtract\s+(\d+)\s+from\s+(?:the\s+)?(hit|wound) roll` (−1),
the same with `rolls` (−1),
`worsen\s+(?:the\s+)?(hit|wound) roll(?:s)? by\s+(\d+)` (−1). -/

/-- The alternation `(hit|wound)`. -/
def tryHitWound (cs : List Char) : Option (String × List Char) :=
  match matchLit (strChars "hit") cs with
  | some r => some ("hit", r)
  | none =>
    match matchLit (strChars "wound") cs with
    | some r => some ("wound", r)
    | none => none

/-- The optional group `(?:the\s+)?` with the engine's backtracking: the
greedy attempt (consume `the` plus whitespace) is tried first, and the
continuation is retried without it on failure. -/
def theOptThen {β : Type} (k : List Char → Option β) (cs : List Char) : Option β :=
  match matchLit (strChars "the") cs with
  | some r =>
    match r with
    | c :: rest =>
      if isPySpace c then
        match k (rest.dropWhile isPySpace) with
        | some b => some b
        | none => k cs
      else k cs
    | [] => k cs
  | none => k cs

/-- Anchored matcher for the `add`/`subtract` pattern shapes
(`kw \s+ (\d+) \s+ mid \s+ (?:the\s+)? (hit|wound) roll[s]`), returning the
consumed length and the captured groups in source order (digits first). -/
def addLikeMatchAt (kw mid : List Char) (plural : Bool) (cs : List Char) :
    Option (Nat × (List Char × List Char)) :=
  match matchLit kw cs with
  | none => none
  | some r1 =>
  match matchSpaces1 r1 with
  | none => none
  | some r2 =>
  let digits := r2.takeWhile isDigitCh
  if digits = [] then none else
  let r3 := r2.dropWhile isDigitCh
  match matchSpaces1 r3 with
  | none => none
  | some r4 =>
  match matchLit mid r4 with
  | none => none
  | some r5 =>
  match matchSpaces1 r5 with
  | none => none
  | some r6 =>
  match theOptThen (fun r7 =>
      match tryHitWound r7 with
      | some (ty, r8) =>
        match matchLit (strChars (if plural then " rolls" else " roll")) r8 with
        | some r9 => some (r9, ty)
        | none => none
      | none => none) r6 with
  | some (rest, ty) => some (cs.length - rest.length, (digits, strChars ty))
  | none => none

/-- Anchored matcher for the `improve`/`worsen` pattern shape
(`kw \s+ (?:the\s+)? (hit|wound) roll(?:s)? by \s+ (\d+)`), returning the
consumed length and the captured groups in source order (type first). -/
def improveLikeMatchAt (kw : List Char) (cs : List Char) :
    Option (Nat × (List Char × List Char)) :=
  match matchLit kw cs with
  | none => none
  | some r1 =>
  match matchSpaces1 r1 with
  | none => none
  | some r2 =>
  match theOptThen (fun r3 =>
      match tryHitWound r3 with
      | some (ty, r4) =>
        match matchLit (strChars " roll") r4 with
        | some r5 =>
          let r6 := match r5 with | 's' :: r => r | _ => r5
          match matchLit (strChars " by") r6 with
          | none => none
          | some r7 =>
          match matchSpaces1 r7 with
          | none => none
          | some r8 =>
          let digits := r8.takeWhile isDigitCh
          if digits = [] then none
          else some (r8.dropWhile isDigitCh, (ty, digits))
        | none => none
      | none => none) r2 with
  | some (rest, ty, digits) => some (cs.length - rest.length, (strChars ty, digits))
  | none => none

/-- `MODIFIER_PATTERNS`: the anchored matcher of each compiled regex paired
with its sign multiplier, in source order. -/
def MODIFIER_PATTERNS :
    List ((List Char → Option (Nat × (List Char × List Char))) × Int) :=
  [ (addLikeMatchAt (strChars "add") (strChars "to") false, 1),
    (addLikeMatchAt (strChars "add") (strChars "to") true, 1),
    (improveLikeMatchAt (strChars "improve"), 1),
    (addLikeMatchAt (strChars "subtract") (strChars "from") false, -1),
    (addLikeMatchAt (strChars "subtract") (strChars "from") true, -1),
    (improveLikeMatchAt (strChars "worsen"), -1) ]

/-! ## Text pattern miner -/

/-- `UNIT_SCOPE_MARKERS`. -/
def UNIT_SCOPE_MARKERS : List String :=
  ["leading a unit", "unit contains", "models in that unit",
   "attached unit", "while this unit", "bodyguard unit"]

/-- `ROLL_KEY_MAP`. -/
def ROLL_KEY_MAP : List (String × String) :=
  [("hit", "hits"), ("wound", "wounds"), ("damage", "damage")]

/-- Reroll detection result (the dict `{"scope": ..., "effects": ...}`). -/
structure RerollData where
  scope : String
  effects : List (String × String)
deriving DecidableEq

/-- Modifier detection result (the dict `{"scope": ..., "effects": ...}`). -/
structure ModData where
  scope : String
  effects : List (String × Int)
deriving DecidableEq

/-- The value computed for one reroll match from its matched segment
(`"failed" in segment`, then `re.search(r"of\s+1s?|of\s+ones|1s|ones", segment)`). -/
def onesHereB (cs : List Char) : Bool :=
  (match matchLit (strChars "of") cs with
   | some r =>
     (match matchSpaces1 r with
      | some r2 =>
        (match r2 with
         | '1' :: _ => true
         | _ => startsWithChars r2 (strChars "ones"))
      | none => false)
   | none => false)
  || startsWithChars cs (strChars "1s")
  || startsWithChars cs (strChars "ones")

/-- Existence search for `of\s+1s?|of\s+ones|1s|ones` inside a segment. -/
def onesSearch : List Char → Bool
  | [] => false
  | c :: rest => onesHereB (c :: rest) || onesSearch rest

/-- The value assigned to a reroll effect from its matched segment. -/
def rerollValueOf (seg : List Char) : String :=
  if containsSub seg (strChars "failed") then "failed"
  else if onesSearch seg then "ones" else "all"

/-- Is any of `UNIT_SCOPE_MARKERS` contained in the normalized text? -/
def unitScopeB (normalized : List Char) : Bool :=
  UNIT_SCOPE_MARKERS.any (fun m => containsSub normalized (strChars m))

/-- The body of the `for match in REROLL_REGEX.finditer(...)` loop: look
the roll type up in `ROLL_KEY_MAP` (skipping unknown types), compute the
value from the segment, and insert it first-writer-wins. -/
def rerollEffectStep (effects : List (String × String)) (m : List Char × String) :
    List (String × String) :=
  match alookup m.2 ROLL_KEY_MAP with
  | none => effects
  | some key =>
    if (alookup key effects).isSome then effects
    else effects ++ [(key, rerollValueOf m.1)]

/-- `extract_reroll_effects`. -/
def extract_reroll_effects (description : String) : Option RerollData :=
  if description = "" then none
  else
    let normalized := lowerStr description.data
    if containsSub normalized (strChars "re-roll") = false then none
    else
      let scope := if unitScopeB normalized then "unit" else "self"
      let effects := (rerollFindIter normalized).foldl rerollEffectStep []
      if effects = [] then none else some { scope := scope, effects := effects }

/-- In-place-or-append accumulation `modifiers[key] = modifiers.get(key, 0) + value`
on an insertion-ordered association list. -/
def bumpKey (m : List (String × Int)) (k : String) (v : Int) : List (String × Int) :=
  match alookup k m with
  | some _ => m.map (fun e => if e.1 = k then (e.1, e.2 + v) else e)
  | none => m ++ [(k, v)]

/-- `extract_modifier_effects`. -/
def extract_modifier_effects (description : String) : Option ModData :=
  if description = "" then none
  else
    let normalized := lowerStr description.data
    if !containsSub normalized (strChars "hit roll") &&
       !containsSub normalized (strChars "wound roll") then none
    else
      let scope := if unitScopeB normalized then "unit" else "self"
      let modifiers := MODIFIER_PATTERNS.foldl
        (fun mods pm =>
          (scanMatches pm.1 normalized).foldl
            (fun mods g =>
              let first := g.1
              let second := g.2
              if first ≠ [] ∧ first.all isDigitCh then
                match alookup (String.mk second) ROLL_KEY_MAP with
                | some key => bumpKey mods key ((digitsToNat first : Int) * pm.2)
                | none => mods
              else if second ≠ [] ∧ second.all isDigitCh then
                match alookup (String.mk first) ROLL_KEY_MAP with
                | some key => bumpKey mods key ((digitsToNat second : Int) * pm.2)
                | none => mods
              else mods)
            mods)
        []
      if modifiers = [] then none else some { scope := scope, effects := modifiers }

/-! ## Input data model

`SelectionNode`s, `Profile`s and rule stubs from the input JSON.  Fields
read with `dict.get` are `Option`s; fields the source indexes directly
(`selection["name"]`, `profile["id"]`, `profile["name"]`, `char["name"]`,
`category["name"]`, `cost["name"]`, `cost["value"]`) are required by the
input contract — where the source would raise `KeyError` the embedding is
only ever evaluated on inputs satisfying the contract.  A `"selections"`,
`"profiles"`, `"rules"`, `"categories"` or `"costs"` key that is absent
behaves identically to one holding `[]` everywhere in the source, so both
are modelled as `[]`. -/

structure Characteristic where
  name : Option String
  text : Option String
deriving DecidableEq

structure Profile where
  typeName : Option String
  id : Option String
  name : Option String
  characteristics : List Characteristic := []
deriving DecidableEq

structure RuleStub where
  id : Option String
  name : Option String
  description : Option String
  hidden : Option Bool
deriving DecidableEq

structure Category where
  name : String
  primary : Option Bool
deriving DecidableEq

structure Cost where
  name : String
  value : Int
deriving DecidableEq

inductive Selection : Type where
  | mk : Option String → String → Option String → Option Nat →
         List Category → List Cost → List Profile → List RuleStub →
         List Selection → Selection

def Selection.id : Selection → Option String
  | .mk i _ _ _ _ _ _ _ _ => i
def Selection.name : Selection → String
  | .mk _ n _ _ _ _ _ _ _ => n
def Selection.type_ : Selection → Option String
  | .mk _ _ t _ _ _ _ _ _ => t
def Selection.number : Selection → Option Nat
  | .mk _ _ _ n _ _ _ _ _ => n
def Selection.categories : Selection → List Category
  | .mk _ _ _ _ c _ _ _ _ => c
def Selection.costs : Selection → List Cost
  | .mk _ _ _ _ _ c _ _ _ => c
def Selection.profiles : Selection → List Profile
  | .mk _ _ _ _ _ _ p _ _ => p
def Selection.rules : Selection → List RuleStub
  | .mk _ _ _ _ _ _ _ r _ => r
def Selection.selections : Selection → List Selection
  | .mk _ _ _ _ _ _ _ _ s => s

compile_inductive% Selection

/-- `is_configuration` (`selection.get("type", "") == "configuration"`). -/
def is_configuration (sel : Selection) : Bool :=
  sel.type_ = some "configuration"

/-- `is_unit_or_model` (`selection.get("type", "") in ["unit", "model"]`). -/
def is_unit_or_model (sel : Selection) : Bool :=
  sel.type_ = some "unit" || sel.type_ = some "model"

/-! ## Output data model -/

structure RuleRec where
  id : String
  name : String
  description : String
  hidden : Bool
deriving DecidableEq

structure AbilityRec where
  id : String
  name : String
  description : String
deriving DecidableEq

/-- The two firing-mode slots of one `linked_weapons` entry. -/
structure LinkedModes where
  standard : Option String
  overcharge : Option String
deriving DecidableEq

structure Weapon where
  id : String
  name : String
  type : String
  characteristics : List (String × String)
  is_hazardous : Bool := false
  base_name : Option String := none
  overcharge_mode : Option String := none
  count : Nat := 0
  models_with_weapon : Nat := 0
deriving DecidableEq

/-- Unit stats; the source's `extract_unit_stats` returns either a dict
with all six keys or the empty dict, modelled as `Option Stats`. -/
structure Stats where
  move : String
  toughness : String
  save : String
  wounds : String
  leadership : String
  objectiveControl : String
deriving DecidableEq

/-- An output unit dict.  Keys the source creates lazily (`rules`,
`abilities`, `models`, `leaderOptions`, the reroll/modifier maps) behave
identically absent or empty in every read the source performs, so they
are plain lists defaulting to `[]`; `isLeader` is only ever read with
truthy `.get`, so absent ≡ `false`; `weapons` is `Option` because the
source only creates the key when at least one weapon was found. -/
structure ArmyUnit where
  id : String
  name : String
  type : String
  stats : Option Stats
  points : Int
  count : Nat
  rules : List String := []
  abilities : List String := []
  isLeader : Bool := false
  leaderOptions : List String := []
  unitRerolls : List (String × String) := []
  leaderAuraRerolls : List (String × String) := []
  unitModifiers : List (String × Int) := []
  leaderAuraModifiers : List (String × Int) := []
  defaultHostId : Option String := none
  linked_weapons : List (String × LinkedModes) := []
  weapons : Option (List Weapon) := none
  models : List ArmyUnit := []

/-- The three global side tables of the `optimized` dict (its other
entries — army name, faction, points, units — never feed back into the
traversal, so the traversal functions thread only these). -/
structure Tables where
  rules : List (String × RuleRec) := []
  abilities : List (String × AbilityRec) := []
  attachments : List (String × List String) := []
deriving DecidableEq

/-! ## Entity deduplicator (`add_rule` / `add_ability`) -/

/-- `add_rule`.  `none` for the input models a non-dict value (the
`isinstance` guard); an id that is `None` or falsy (empty) yields no id. -/
def add_rule (rule : Option RuleStub) (t : Tables) : Option String × Tables :=
  match rule with
  | none => (none, t)
  | some r =>
    match r.id with
    | none => (none, t)
    | some rid =>
      if rid = "" then (none, t)
      else if (alookup rid t.rules).isSome then (some rid, t)
      else (some rid,
        { t with rules := t.rules ++
            [(rid, { id := rid, name := r.name.getD "Unnamed Rule",
                     description := r.description.getD "",
                     hidden := r.hidden.getD false })] })

/-- `extract_profile_description`: the `$text` of the first
characteristic named `Description`, else the empty string. -/
def extract_profile_description (p : Profile) : String :=
  match p.characteristics.find? (fun c => c.name = some "Description") with
  | some c => c.text.getD ""
  | none => ""

/-- `add_ability`.  The inline description loop of the source is the same
first-`Description`-characteristic scan as `extract_profile_description`. -/
def add_ability (p : Option Profile) (t : Tables) : Option String × Tables :=
  match p with
  | none => (none, t)
  | some prof =>
    match prof.id with
    | none => (none, t)
    | some aid =>
      if aid = "" then (none, t)
      else if (alookup aid t.abilities).isSome then (some aid, t)
      else (some aid,
        { t with abilities := t.abilities ++
            [(aid, { id := aid, name := prof.name.getD "Unnamed Ability",
                     description := extract_profile_description prof })] })

/-! ## Leader option mining (`extract_leader_options`) -/

/-- The line-break characters of Python `str.splitlines`. -/
def isLineBreak (c : Char) : Bool :=
  decide (c.toNat = 10 ∨ c.toNat = 13 ∨ c.toNat = 11 ∨ c.toNat = 12 ∨
          c.toNat = 28 ∨ c.toNat = 29 ∨ c.toNat = 30 ∨ c.toNat = 133 ∨
          c.toNat = 8232 ∨ c.toNat = 8233)

/-- Worker for `splitLinesPy`, structurally recursive on a fuel bound
(at least one character is consumed per step, so the initial fuel — the
input length — is never exhausted): `cur` is the reversed current line;
a break at the very end of the string does not open a trailing empty
line. -/
def splitLinesGo : Nat → List Char → List Char → List (List Char)
  | _, cur, [] => [cur.reverse]
  | 0, cur, _ => [cur.reverse]
  | fuel + 1, cur, '\r' :: '\n' :: rest =>
    cur.reverse :: (if rest = [] then [] else splitLinesGo fuel [] rest)
  | fuel + 1, cur, c :: rest =>
    if isLineBreak c then
      cur.reverse :: (if rest = [] then [] else splitLinesGo fuel [] rest)
    else splitLinesGo fuel (c :: cur) rest

/-- Python `str.splitlines`. -/
def splitLinesPy (cs : List Char) : List (List Char) :=
  if cs = [] then [] else splitLinesGo cs.length [] cs

/-- The tuple `bullet_prefixes` of the source. -/
def bulletTuple : List Char := ['■', '-', '•', '*', '–', '—']

/-- The character class of the source's bullet regex
`^[■●▪•‣\-–—]\s*(.+)$`. -/
def bulletClass : List Char := ['■', '●', '▪', '•', '‣', '-', '–', '—']

/-- `extract_leader_options`: bullet-prefixed lines of the description
become options.  Lines starting with a `bulletTuple` character are
`lstrip`ped of all such characters and stripped; other lines go through
the bullet regex (`\s*` is greedy and a stripped line never ends in
whitespace, so group 1 is the rest of the line after leading whitespace). -/
def extract_leader_options (description : String) : List String :=
  if description = "" then []
  else
    (splitLinesPy description.data).foldl
      (fun options line =>
        let stripped := pyStrip line
        if stripped = [] then options
        else
          let option :=
            match stripped with
            | [] => []
            | c :: rest =>
              if bulletTuple.contains c then
                pyStrip ((c :: rest).dropWhile (fun x => bulletTuple.contains x))
              else if bulletClass.contains c then
                pyStrip (rest.dropWhile isPySpace)
              else []
          if option = [] then options else options ++ [String.mk option])
      []

/-! ## Effect merging onto units -/

/-- Append-if-key-absent accumulation (`dict.setdefault(key, value)` per
effect entry, in iteration order). -/
def setdefaults (m : List (String × String)) (effects : List (String × String)) :
    List (String × String) :=
  effects.foldl
    (fun acc kv => if (alookup kv.1 acc).isSome then acc else acc ++ [kv]) m

/-- Summing accumulation over all effect entries. -/
def bumpAll (m : List (String × Int)) (effects : List (String × Int)) :
    List (String × Int) :=
  effects.foldl (fun acc kv => bumpKey acc kv.1 kv.2) m

/-- `apply_reroll_effects` (callers only invoke it with a present, truthy
`reroll_data`, so the `if not reroll_data` guard is at the call sites). -/
def apply_reroll_effects (target : ArmyUnit) (rd : RerollData) : ArmyUnit :=
  if rd.scope = "unit" ∧ target.isLeader then
    { target with leaderAuraRerolls := setdefaults target.leaderAuraRerolls rd.effects }
  else
    { target with unitRerolls := setdefaults target.unitRerolls rd.effects }

/-- `apply_modifier_effects` (same guard convention). -/
def apply_modifier_effects (target : ArmyUnit) (md : ModData) : ArmyUnit :=
  if md.scope = "unit" ∧ target.isLeader then
    { target with leaderAuraModifiers := bumpAll target.leaderAuraModifiers md.effects }
  else
    { target with unitModifiers := bumpAll target.unitModifiers md.effects }

/-- `maybe_add_leader_metadata`. -/
def maybe_add_leader_metadata (p : Profile) (u : ArmyUnit) : ArmyUnit :=
  let nm := String.mk (lowerStr (pyStrip (p.name.getD "").data))
  if nm ≠ "leader" then u
  else
    let description := extract_profile_description p
    let options := extract_leader_options description
    let u := { u with isLeader := true }
    if options = [] then u
    else
      { u with leaderOptions :=
          (options.foldl
            (fun acc o => if elemStr o acc then acc else acc ++ [o])
            u.leaderOptions) }

/-- `maybe_add_reroll_metadata`. -/
def maybe_add_reroll_metadata (p : Profile) (u : ArmyUnit) : ArmyUnit :=
  match extract_reroll_effects (extract_profile_description p) with
  | some rd => apply_reroll_effects u rd
  | none => u

/-- `maybe_add_modifier_metadata`. -/
def maybe_add_modifier_metadata (p : Profile) (u : ArmyUnit) : ArmyUnit :=
  match extract_modifier_effects (extract_profile_description p) with
  | some md => apply_modifier_effects u md
  | none => u

/-! ## Unit builder -/

/-- `get_primary_category`. -/
def get_primary_category (sel : Selection) : String :=
  match sel.categories.find? (fun c => c.primary.getD false) with
  | some c => c.name
  | none => "Unknown"

/-- `get_points_cost` (the first cost named `pts`). -/
def get_points_cost (sel : Selection) : Int :=
  match sel.costs.find? (fun c => c.name = "pts") with
  | some c => c.value
  | none => 0

/-- First pass of `extract_unit_stats`: unconditional assignment of a
characteristic into the stat record. -/
def statAssign (st : Stats) (nm value : String) : Stats :=
  if nm = "M" then { st with move := value }
  else if nm = "T" then { st with toughness := value }
  else if nm = "SV" then { st with save := value }
  else if nm = "W" then { st with wounds := value }
  else if nm = "LD" then { st with leadership := value }
  else if nm = "OC" then { st with objectiveControl := value }
  else st

/-- Second pass of `extract_unit_stats`: assignment only when the stat
field is still empty. -/
def statAssignIfEmpty (st : Stats) (nm value : String) : Stats :=
  if nm = "M" ∧ st.move = "" then { st with move := value }
  else if nm = "T" ∧ st.toughness = "" then { st with toughness := value }
  else if nm = "SV" ∧ st.save = "" then { st with save := value }
  else if nm = "W" ∧ st.wounds = "" then { st with wounds := value }
  else if nm = "LD" ∧ st.leadership = "" then { st with leadership := value }
  else if nm = "OC" ∧ st.objectiveControl = "" then { st with objectiveControl := value }
  else st

def statsAllEmpty (s : Stats) : Bool :=
  s.move = "" && s.toughness = "" && s.save = "" && s.wounds = "" &&
  s.leadership = "" && s.objectiveControl = ""

/-- Fold one node's `Unit`-typed profiles over a stat record with the
given per-characteristic assignment. -/
def statsFromProfiles (assign : Stats → String → String → Stats)
    (profiles : List Profile) (st : Stats) : Stats :=
  profiles.foldl
    (fun st p =>
      if p.typeName = some "Unit" then
        p.characteristics.foldl
          (fun st c => assign st (c.name.getD "") (c.text.getD "")) st
      else st)
    st

/-- `extract_unit_stats`: own profiles first; if all six fields are still
empty, scan immediate non-configuration unit/model children first-writer-
wins; `none` models the `{}` returned when nothing was found. -/
def extract_unit_stats (sel : Selection) : Option Stats :=
  let stats : Stats := ⟨"", "", "", "", "", ""⟩
  let stats := statsFromProfiles statAssign sel.profiles stats
  let stats :=
    if statsAllEmpty stats then
      sel.selections.foldl
        (fun st sub =>
          if is_configuration sub || !is_unit_or_model sub then st
          else statsFromProfiles statAssignIfEmpty sub.profiles st)
        stats
    else stats
  if statsAllEmpty stats then none else some stats

/-- Dedup-append of a registered id onto a unit's rule reference list. -/
def addRuleRef (u : ArmyUnit) (rid? : Option String) : ArmyUnit :=
  match rid? with
  | some rid =>
    { u with rules := if elemStr rid u.rules then u.rules else u.rules ++ [rid] }
  | none => u

/-- Dedup-append of a registered id onto a unit's ability reference list. -/
def addAbilityRef (u : ArmyUnit) (aid? : Option String) : ArmyUnit :=
  match aid? with
  | some aid =>
    { u with abilities :=
        if elemStr aid u.abilities then u.abilities else u.abilities ++ [aid] }
  | none => u

/-- `create_unit`.  `freshToken` stands for the `str(uuid.uuid4())[:8]`
generated in the `selection.get("id", ...)` default: a fresh random token
consumed once per call and used only when the node has no id. -/
def create_unit (sel : Selection) (t : Tables) (freshToken : String) :
    ArmyUnit × Tables :=
  let u0 : ArmyUnit :=
    { id := sel.id.getD freshToken,
      name := sel.name,
      type := get_primary_category sel,
      stats := extract_unit_stats sel,
      points := get_points_cost sel,
      count := sel.number.getD 1,
      models := [] }
  let p1 := sel.rules.foldl
    (fun (acc : ArmyUnit × Tables) r =>
      let (rid?, t') := add_rule (some r) acc.2
      (addRuleRef acc.1 rid?, t'))
    (u0, t)
  sel.profiles.foldl
    (fun (acc : ArmyUnit × Tables) p =>
      if p.typeName = some "Abilities" then
        let (aid?, t') := add_ability (some p) acc.2
        let u := maybe_add_leader_metadata p acc.1
        let u := maybe_add_reroll_metadata p u
        let u := maybe_add_modifier_metadata p u
        (addAbilityRef u aid?, t')
      else acc)
    p1

/-! ## Weapon aggregator (`extract_weapons_abilities_rules`) -/

/-- `extract_characteristics`: dict built from `char["name"].lower()` →
`char.get("$text", "")`, with later duplicates overwriting in place. -/
def assocSet (m : List (String × String)) (k v : String) : List (String × String) :=
  match alookup k m with
  | some _ => m.map (fun e => if e.1 = k then (e.1, v) else e)
  | none => m ++ [(k, v)]

def extract_characteristics (p : Profile) : List (String × String) :=
  p.characteristics.foldl
    (fun acc c =>
      assocSet acc (String.mk (lowerStr (c.name.getD "").data)) (c.text.getD ""))
    []

/-- Python `name.split(" - ")[0]`: the part before the first occurrence
of the separator (the whole string when the separator is absent). -/
def splitHeadBy (sep : List Char) : List Char → List Char
  | [] => []
  | c :: rest =>
    if startsWithChars (c :: rest) sep then []
    else c :: splitHeadBy sep rest

/-- Store a weapon id in its `linked_weapons` mode slot. -/
def setLinkedMode (lm : LinkedModes) (mode wid : String) : LinkedModes :=
  if mode = "overcharge" then { lm with overcharge := some wid }
  else { lm with standard := some wid }

/-- One accumulated `weapon_counts` entry. -/
structure WeaponAcc where
  weapon : Weapon
  count : Nat
  models_with_weapon : Nat
deriving DecidableEq

/-- The state the nested `process_selection` closure mutates: the
`weapon_counts` dict, the unit being built, and the global tables. -/
structure WalkSt where
  weapon_counts : List (String × WeaponAcc)
  unit : ArmyUnit
  tables : Tables

/-- Register one rule stub found during the walk and reference it on the
unit (the `rules` loop of `process_selection`). -/
def processRuleRef (r : RuleStub) (st : WalkSt) : WalkSt :=
  let (rid?, t') := add_rule (some r) st.tables
  { st with unit := addRuleRef st.unit rid?, tables := t' }

/-- Modelled from the spec: the body of the `for profile in
selection["profiles"]` loop of `process_selection`.  In the source this
loop is not executable as written — line 458
(`maybe_add_modifier_metadata(profile, unit)`) is dedented out of the
`Abilities` branch, which makes `parse_json.py` fail to load with
`IndentationError: unexpected indent` at line 461.  Per spec §4.4 (and
the parallel, correctly indented block in `create_unit`) the modifier
miner is applied inside the `Abilities` branch together with the leader
and reroll miners, which is how the branch is modelled here.  `selNumber`
is the owning selection's `number` field (`selection.get("number", 1)`),
`model_count` the multiplier in effect at this node. -/
def processProfile (selNumber : Option Nat) (model_count : Nat) (p : Profile)
    (st : WalkSt) : WalkSt :=
  if p.typeName = some "Ranged Weapons" ∨ p.typeName = some "Melee Weapons" then
    let weapon_id := (p.id).getD ""
    let pname := (p.name).getD ""
    let wchars := extract_characteristics p
    let weapon0 : Weapon :=
      { id := weapon_id, name := pname, type := (p.typeName).getD "",
        characteristics := wchars }
    let keywords := lowerStr ((alookup "keywords" wchars).getD "").data
    let weapon1 :=
      if containsSub keywords (strChars "hazardous") ||
         containsSub (lowerStr pname.data) (strChars "hazardous") then
        { weapon0 with is_hazardous := true }
      else weapon0
    let firing : Bool :=
      match pname.data with | c :: _ => decide (c = '➤') | [] => false
    let (weapon2, unit1) :=
      if firing then
        let base_name := String.mk (splitHeadBy (strChars " - ") pname.data)
        let mode :=
          if containsSub (lowerStr pname.data) (strChars "overcharge")
          then "overcharge" else "standard"
        let w := { weapon1 with base_name := some base_name,
                                overcharge_mode := some mode }
        let lw := st.unit.linked_weapons
        let lw :=
          if (alookup base_name lw).isSome then lw
          else lw ++ [(base_name, { standard := none, overcharge := none })]
        let lw := lw.map
          (fun e => if e.1 = base_name then (e.1, setLinkedMode e.2 mode weapon_id) else e)
        (w, { st.unit with linked_weapons := lw })
      else (weapon1, st.unit)
    let number_of_weapons := selNumber.getD 1
    let wc :=
      match alookup weapon_id st.weapon_counts with
      | some _ =>
        st.weapon_counts.map
          (fun e =>
            if e.1 = weapon_id then
              (e.1, { e.2 with count := e.2.count + number_of_weapons,
                               models_with_weapon := e.2.models_with_weapon + model_count })
            else e)
      | none =>
        st.weapon_counts ++
          [(weapon_id,
            { weapon := weapon2, count := number_of_weapons,
              models_with_weapon := model_count })]
    { weapon_counts := wc, unit := unit1, tables := st.tables }
  else if p.typeName = some "Abilities" then
    let (aid?, t') := add_ability (some p) st.tables
    let u := maybe_add_leader_metadata p st.unit
    let u := maybe_add_reroll_metadata p u
    let u := maybe_add_modifier_metadata p u
    { weapon_counts := st.weapon_counts, unit := addAbilityRef u aid?, tables := t' }
  else st

/-- The recursive body of `extract_weapons_abilities_rules`: both the top
loop over `selections` and the recursive subselection loop of
`process_selection`, which differ only in the inherited multiplier
(`unit.get("count", 1)` at the top, the current `model_count` below), so a
single list recursion with the inherited multiplier as parameter covers
both.  Per element: configuration nodes are skipped; unit/model nodes get
their own `number` (default 1) as multiplier; other nodes inherit; then
the element's profiles, rules and subselections are processed in order.
Structurally recursive on a fuel bound so the kernel can evaluate it;
`sizeOf` of the selection list strictly dominates both recursive calls,
so the wrapper's initial fuel is never exhausted. -/
def process_sub_go : Nat → List Selection → Nat → WalkSt → WalkSt
  | 0, _, _, st => st
  | _ + 1, [], _, st => st
  | fuel + 1, (Selection.mk sid snm sty snum scats scosts sprofs srls ssubs) :: rest,
    model_count, st =>
    let sel := Selection.mk sid snm sty snum scats scosts sprofs srls ssubs
    let st' :=
      if is_configuration sel then st
      else
        let mc := if is_unit_or_model sel then snum.getD 1 else model_count
        let st1 := sprofs.foldl (fun s p => processProfile snum mc p s) st
        let st2 := srls.foldl (fun s r => processRuleRef r s) st1
        process_sub_go fuel ssubs mc st2
    process_sub_go fuel rest model_count st'

def process_sub_list (sels : List Selection) (model_count : Nat) (st : WalkSt) :
    WalkSt :=
  process_sub_go (sizeOf sels) sels model_count st

/-- `extract_weapons_abilities_rules`: walk the subtree, then attach the
accumulated weapons (with their counts) to the unit when any were found. -/
def extract_weapons_abilities_rules (sels : List Selection) (t : Tables)
    (unit : ArmyUnit) : ArmyUnit × Tables :=
  let st := process_sub_list sels unit.count
    { weapon_counts := [], unit := unit, tables := t }
  let u := st.unit
  let u :=
    if st.weapon_counts = [] then u
    else
      { u with weapons := some (st.weapon_counts.map
          (fun e =>
            { e.2.weapon with count := e.2.count,
                              models_with_weapon := e.2.models_with_weapon })) }
  (u, st.tables)

/-! ## Tree walker (`extract_units`) -/

/-- `register_default_attachment`: a falsy host or leader id aborts the
registration (including the `defaultHostId` stamp); otherwise the leader
id is appended once to the host's attachment list and the leader unit is
stamped with `defaultHostId`. -/
def register_default_attachment (t : Tables) (hostId : String)
    (leader : ArmyUnit) : Tables × ArmyUnit :=
  if hostId = "" ∨ leader.id = "" then (t, leader)
  else
    let att := t.attachments
    let att := if (alookup hostId att).isSome then att else att ++ [(hostId, [])]
    let att := att.map
      (fun e =>
        if e.1 = hostId then
          (e.1, if elemStr leader.id e.2 then e.2 else e.2 ++ [leader.id])
        else e)
    ({ t with attachments := att }, { leader with defaultHostId := some hostId })

/-- What a recursive `extract_units` call reads from its `parent` unit
dict: its id and its `isLeader` flag as of the moment of the call (the
source passes the mutable dict; the walk below only consults these two
fields, and neither changes while the children are being processed). -/
structure ParentCtx where
  id : String
  isLeader : Bool

/-- The threaded traversal state: the global tables plus the stream of
fresh `uuid` tokens, one consumed per `create_unit` call. -/
structure TreeSt where
  tables : Tables
  supply : List String

/-- `extract_units`, restructured state-passingly.  The source appends a
freshly created unit to `optimized["units"]` (or `parent["models"]`) and
then keeps mutating it in place; here the unit is finished first and the
returned lists carry the finished units in the order the source would
have appended them.  Returns (state, units destined for the top-level
`units` list, units destined for the parent's `models` list).
Structurally recursive on a fuel bound so the kernel can evaluate it;
`sizeOf` of the selection list strictly dominates both recursive calls,
so the wrapper's initial fuel is never exhausted. -/
def extract_units_walk : Nat → List Selection → TreeSt → Option ParentCtx →
    TreeSt × List ArmyUnit × List ArmyUnit
  | 0, _, st, _ => (st, [], [])
  | _ + 1, [], st, _ => (st, [], [])
  | fuel + 1, (Selection.mk sid snm sty snum scats scosts sprofs srls ssubs) :: rest,
    st, parent =>
    let sel := Selection.mk sid snm sty snum scats scosts sprofs srls ssubs
    if is_configuration sel then extract_units_walk fuel rest st parent
    else if is_unit_or_model sel then
      -- create_unit (consuming one uuid token)
      let token := st.supply.headD ""
      let (u0, t1) := create_unit sel st.tables token
      -- register_default_attachment when a leader is already embedded
      let (t2, u1) :=
        match parent with
        | some pc =>
          if !pc.isLeader ∧ u0.isLeader ∧ sty ≠ some "model" then
            register_default_attachment t1 pc.id u0
          else (t1, u0)
        | none => (t1, u0)
      -- subtree walk: weapons/abilities/rules, then nested units
      let (u2, t3) := extract_weapons_abilities_rules ssubs t2 u1
      let (stS, nested, models) :=
        extract_units_walk fuel ssubs { tables := t3, supply := st.supply.tail }
          (some { id := u2.id, isLeader := u2.isLeader })
      let u3 := { u2 with models := u2.models ++ models }
      let (stR, topsR, modelsR) := extract_units_walk fuel rest stS parent
      if parent.isSome ∧ sty = some "model" then
        (stR, nested ++ topsR, u3 :: modelsR)
      else
        (stR, u3 :: (nested ++ topsR), modelsR)
    else
      -- pass-through container: recurse with the same parent
      let (stC, tops, models) := extract_units_walk fuel ssubs st parent
      let (stR, topsR, modelsR) := extract_units_walk fuel rest stC parent
      (stR, tops ++ topsR, models ++ modelsR)

def extract_units_go (sels : List Selection) (st : TreeSt)
    (parent : Option ParentCtx) : TreeSt × List ArmyUnit × List ArmyUnit :=
  extract_units_walk (sizeOf sels) sels st parent

/-- Top-level `extract_units(selections, optimized)` over a force's
selections: `parent` is `None`, results are appended to the given units
list; only the output document components (tables, units) are returned. -/
def extract_units (sels : List Selection) (t : Tables) (units : List ArmyUnit)
    (supply : List String) : Tables × List ArmyUnit :=
  let (st, tops, _models) := extract_units_go sels { tables := t, supply := supply } none
  (st.tables, units ++ tops)

/-! ## `extract_points`

Modelled over untyped JSON values, because the claim is about which
runtime errors the `try`/`except (KeyError, ValueError)` catches.
`JValue.num` carries an integer (the total-points field of the input
format; non-integral floats do not occur in it). -/

inductive PyErr : Type where
  | keyError
  | typeError
  | valueError
deriving DecidableEq

inductive JValue : Type where
  | null
  | bool (b : Bool)
  | num (n : Int)
  | str (s : String)
  | arr (xs : List JValue)
  | obj (fields : List (String × JValue))

/-- Python subscription `v[k]` with a string key: a dict lookup raising
`KeyError` on a missing key, and `TypeError` on every non-dict value. -/
def JValue.sub (v : JValue) (k : String) : Except PyErr JValue :=
  match v with
  | .obj fields =>
    match alookup k fields with
    | some x => .ok x
    | none => .error .keyError
  | _ => .error .typeError

/-- Python `int(...)` on a JSON value: ints pass through, booleans
coerce, strings parse (optional surrounding whitespace, optional sign,
then digits) raising `ValueError` otherwise, and `None`/lists/dicts
raise `TypeError`. -/
def pyIntOf (v : JValue) : Except PyErr Int :=
  match v with
  | .num n => .ok n
  | .bool b => .ok (if b then 1 else 0)
  | .str s =>
    let core := pyStrip s.data
    let (sign, digits) : Int × List Char :=
      match core with
      | '-' :: rest => (-1, rest)
      | '+' :: rest => (1, rest)
      | _ => (1, core)
    if digits ≠ [] ∧ digits.all isDigitCh then .ok (sign * (digitsToNat digits : Int))
    else .error .valueError
  | _ => .error .typeError

/-- The body of `extract_points`' `try` block:
`int(data["roster"]["points"]["total"])`. -/
def rawPoints (data : JValue) : Except PyErr Int := do
  let roster ← data.sub "roster"
  let points ← roster.sub "points"
  let total ← points.sub "total"
  pyIntOf total

/-- `extract_points`: the `except (KeyError, ValueError)` clause turns
those two errors into the fallback `0`; a `TypeError` propagates. -/
def extract_points (data : JValue) : Except PyErr Int :=
  match rawPoints data with
  | .ok n => .ok n
  | .error .keyError => .ok 0
  | .error .valueError => .ok 0
  | .error .typeError => .error .typeError

/-! ## Auxiliary predicates and concrete instances used by the claims -/

/-- Worker for `selsAllIds`, fuelled like the tree walk so that the two
recursions line up step for step. -/
def selsAllIdsGo : Nat → List Selection → Bool
  | 0, _ => true
  | _ + 1, [] => true
  | fuel + 1, (Selection.mk sid _ sty _ _ _ _ _ ssubs) :: rest =>
    (if sty = some "unit" ∨ sty = some "model" then sid.isSome else true) &&
    selsAllIdsGo fuel ssubs && selsAllIdsGo fuel rest

/-- Every unit- or model-typed node of the tree carries an `id` (so no
`uuid` token is ever read). -/
def selsAllIds (sels : List Selection) : Bool :=
  selsAllIdsGo (sizeOf sels) sels

/-- The stored value for a key of a modifier map (0 when absent, which is
both the `get(key, 0)` default of the source and the value an absent key
renders as in arithmetic comparisons). -/
def lookup0 (m : List (String × Int)) (k : String) : Int :=
  (alookup k m).getD 0

/-- Total magnitude an effects list contributes to one key. -/
def sumEff : List (String × Int) → String → Int
  | [], _ => 0
  | kv :: rest, k => (if k = kv.1 then kv.2 else 0) + sumEff rest k

/-- C1 instance: a `Leader`-named ability profile with a short description. -/
def c1Leader : Profile :=
  { typeName := some "Abilities", id := some "abL", name := some "Leader",
    characteristics :=
      [{ name := some "Description",
         text := some "This model can be attached to a unit." }] }

/-- C1 instance: an ability whose description triggers both the modifier
and the reroll miner. -/
def c1Ability : Profile :=
  { typeName := some "Abilities", id := some "ab1", name := some "Focused Fire",
    characteristics :=
      [{ name := some "Description",
         text := some "Add 1 to the hit roll. You can re-roll hit rolls." }] }

/-- C1 instance: two sub-model entries, the second re-referencing the
same ability id. -/
def c1ModelA : Selection :=
  Selection.mk (some "m1") "Gunner" (some "model") none [] [] [c1Leader, c1Ability] [] []

def c1ModelB : Selection :=
  Selection.mk (some "m2") "Gunner" (some "model") none [] [] [c1Ability] [] []

/-- C1 instance: the unit being built when the subtree walk starts. -/
def c1Unit : ArmyUnit :=
  { id := "U", name := "Squad", type := "Infantry", stats := none,
    points := 0, count := 1, models := [] }

/-- C3 instance: a unit node whose `id` field is absent. -/
def c3NoIdSel : Selection :=
  Selection.mk none "Warboss" (some "unit") none [] [] [] [] []

/-- C3 instance: the same tree with the `id` present. -/
def c3IdSel : Selection :=
  Selection.mk (some "wb") "Warboss" (some "unit") none [] [] [] [] []

/-- C4 instance: a `Leader`-named ability profile. -/
def c4LeaderProfile : Profile :=
  { typeName := some "Abilities", id := some "abL4", name := some "Leader",
    characteristics :=
      [{ name := some "Description",
         text := some "This model can be attached to a unit." }] }

/-- C4 instance: a leader unit node carrying the `Leader` ability
directly (the spec's canonical leader-attachment example). -/
def c4LeaderSel : Selection :=
  Selection.mk (some "L") "Captain" (some "unit") none [] [] [c4LeaderProfile] [] []

/-- C4 instance: the non-leader host unit node (type `unit`, no Leader
ability of its own) with the leader embedded one level below. -/
def c4HostSel : Selection :=
  Selection.mk (some "H") "Squad" (some "unit") none [] [] [] [] [c4LeaderSel]

/-- C8 instance: a `Bolt Rifle` ranged-weapon profile. -/
def c8Weapon : Profile :=
  { typeName := some "Ranged Weapons", id := some "br1", name := some "Bolt Rifle",
    characteristics := [{ name := some "Range", text := some "30" }] }

/-- C8 instance: one model entry carrying one instance of the weapon
(`number` absent). -/
def c8Model : Selection :=
  Selection.mk (some "m1") "Intercessor" (some "model") none [] [] [c8Weapon] [] []

/-- C8 instance: the unit being built. -/
def c8Unit : ArmyUnit :=
  { id := "U8", name := "Intercessor Squad", type := "Infantry", stats := none,
    points := 0, count := 1, models := [] }

/-! # Claim theorems -/

/-- C1: in the (spec-modelled, see `processProfile`) subtree walk, every
`Abilities` profile registers its ability in the global table, appends
the id to the unit's ability list without duplicates, and applies all
three text miners onto the unit being built — here the `Leader` ability
nested in sub-model `m1` sets `isLeader` on the parent unit, the shared
ability `ab1` appears once in the reference list but its modifier is
accumulated once per occurrence (`hits = 2` across the two sub-models),
the reroll value is merged first-writer-wins, and the global table holds
both abilities once.  (The source file itself cannot run: line 458 is
dedented out of the `Abilities` branch, an `IndentationError`.) -/
theorem c1_subtree_ability_mining :
    (fun r => (r.1.abilities, r.1.unitModifiers, r.1.unitRerolls, r.1.isLeader,
               r.2.abilities.map Prod.fst))
      (extract_weapons_abilities_rules [c1ModelA, c1ModelB] {} c1Unit)
    = (["abL", "ab1"], [("hits", 2)], [("hits", "all")], true, ["abL", "ab1"]) := by
  decide

/-- C2 counterexample: on the claim's description the modifier miner
returns `hits = 2`, not `1` — both the singular `... roll` and the plural
`... rolls` add-patterns of `MODIFIER_PATTERNS` match the text
`add 1 to hit rolls` and their magnitudes are summed. -/
theorem c2_counterexample :
    extract_modifier_effects "Add 1 to Hit rolls for attacks made with this weapon."
      = some { scope := "self", effects := [("hits", 2)] } ∧
    (extract_modifier_effects "Add 1 to Hit rolls for attacks made with this weapon.").bind
        (fun d => alookup "hits" d.effects) ≠ some 1 := by
  constructor
  · decide
  · decide

/-- C2 (amended): for the description
`"Add 1 to Hit rolls for attacks made with this weapon."` numeric
modifier detection returns scope `"self"` and `effects.hits = 2`, because
the singular and plural `add` patterns both match and are summed. -/
theorem c2_amended_self_scope_hits :
    extract_modifier_effects "Add 1 to Hit rolls for attacks made with this weapon."
      = some { scope := "self", effects := [("hits", 2)] } := by
  decide

/-- C4: evaluating the walker at the spec's own leader-attachment example
(a unit node with an ability named exactly `Leader`, nested one level
under a host unit node that has no Leader ability of its own).  The
attachments table stays empty and no `defaultHostId` is stamped: the
host's subtree walk runs before its children are built and mines the
embedded `Leader` ability onto the host itself, so at the moment the
leader child is built the "parent is not a leader" test always fails and
`register_default_attachment` is unreachable. -/
theorem c4_attachment_never_registered :
    (fun r => (r.1.attachments,
               r.2.map (fun u => (u.id, u.isLeader, u.defaultHostId))))
      (extract_units [c4HostSel] {} [] ["t1", "t2"])
    = ([], [("H", true, none), ("L", true, none)]) ∧
    (c4HostSel.profiles.all
      (fun p => decide (p.name ≠ some "Leader"))) = true := by
  constructor
  · decide
  · decide

/-- C8: a unit whose subtree is 3 identical model entries (same weapon
profile id), each carrying one instance of `Bolt Rifle` with `number`
absent, aggregates to a single weapon record with `count = 3` and
`models_with_weapon = 3`. -/
theorem c8_weapon_aggregation :
    ((extract_weapons_abilities_rules [c8Model, c8Model, c8Model] {} c8Unit).1.weapons).map
        (fun ws => ws.map (fun w => (w.id, w.name, w.count, w.models_with_weapon)))
      = some [("br1", "Bolt Rifle", 3, 3)] := by
  decide

/-- C6 counterexample: a wrong-typed total-points value (here a list)
makes `int(...)` raise `TypeError`, which the
`except (KeyError, ValueError)` clause does not catch — `extract_points`
propagates the error instead of returning 0. -/
theorem c6_counterexample :
    extract_points
      (JValue.obj [("roster",
        JValue.obj [("points", JValue.obj [("total", JValue.arr [])])])])
      = .error .typeError := by
  rfl

/-- C6 (amended): points extraction returns the nested total parsed as an
integer; a missing key (`KeyError`) or an unparsable string
(`ValueError`) falls back to 0 without raising, but a wrong-typed
container or value raises `TypeError`, which is not caught. -/
theorem c6_amended_points_fallback (d : JValue) :
    ((rawPoints d = .error .keyError ∨ rawPoints d = .error .valueError) →
        extract_points d = .ok 0) ∧
    (∀ n : Int, rawPoints d = .ok n → extract_points d = .ok n) ∧
    (rawPoints d = .error .typeError → extract_points d = .error .typeError) ∧
    extract_points d ≠ .error .keyError ∧
    extract_points d ≠ .error .valueError := by
  rcases h : rawPoints d with e | n
  · cases e <;> simp [extract_points, h]
  · simp [extract_points, h]

/-- C6 witness: concrete inputs exercising each hypothesis of the amended
theorem — a missing key falls back to 0, an unparsable string falls back
to 0, a well-typed total is returned, and a wrong-typed total raises. -/
theorem c6_amended_points_fallback_witness :
    (rawPoints (JValue.obj []) = .error .keyError ∧
      extract_points (JValue.obj []) = .ok 0) ∧
    (rawPoints (JValue.obj [("roster",
        JValue.obj [("points", JValue.obj [("total", JValue.str "ten")])])])
        = .error .valueError ∧
      extract_points (JValue.obj [("roster",
        JValue.obj [("points", JValue.obj [("total", JValue.str "ten")])])])
        = .ok 0) ∧
    (rawPoints (JValue.obj [("roster",
        JValue.obj [("points", JValue.obj [("total", JValue.num 1500)])])])
        = .ok 1500 ∧
      extract_points (JValue.obj [("roster",
        JValue.obj [("points", JValue.obj [("total", JValue.num 1500)])])])
        = .ok 1500) ∧
    (rawPoints (JValue.obj [("roster", JValue.num 3)]) = .error .typeError ∧
      extract_points (JValue.obj [("roster", JValue.num 3)])
        = .error .typeError) :=
  ⟨⟨rfl, (c6_amended_points_fallback (JValue.obj [])).1 (Or.inl rfl)⟩,
   ⟨rfl, (c6_amended_points_fallback _).1 (Or.inr rfl)⟩,
   ⟨rfl, (c6_amended_points_fallback _).2.1 1500 rfl⟩,
   ⟨rfl, (c6_amended_points_fallback _).2.2.1 rfl⟩⟩

/-- C10: a unit-scoped mined effect is merged into the leader-aura maps
exactly when the target's `isLeader` flag is set at the moment the merge
runs, and into the unit maps otherwise (so the destination depends on
whether the `Leader` ability was processed before the effect's ability in
traversal order). -/
theorem c10_unit_scope_destination (u : ArmyUnit) (rd : RerollData) (md : ModData)
    (hr : rd.scope = "unit") (hm : md.scope = "unit") :
    (u.isLeader = true →
      (apply_reroll_effects u rd).leaderAuraRerolls
          = setdefaults u.leaderAuraRerolls rd.effects ∧
      (apply_reroll_effects u rd).unitRerolls = u.unitRerolls ∧
      (apply_modifier_effects u md).leaderAuraModifiers
          = bumpAll u.leaderAuraModifiers md.effects ∧
      (apply_modifier_effects u md).unitModifiers = u.unitModifiers) ∧
    (u.isLeader = false →
      (apply_reroll_effects u rd).unitRerolls
          = setdefaults u.unitRerolls rd.effects ∧
      (apply_reroll_effects u rd).leaderAuraRerolls = u.leaderAuraRerolls ∧
      (apply_modifier_effects u md).unitModifiers
          = bumpAll u.unitModifiers md.effects ∧
      (apply_modifier_effects u md).leaderAuraModifiers
          = u.leaderAuraModifiers) := by
  unfold apply_reroll_effects apply_modifier_effects
  constructor <;> intro hL <;> simp [hr, hm, hL]

/-- C10 witness: the destination switch at a concrete unit and effect —
with the flag set the aura maps receive the effect, without it the unit
maps do. -/
theorem c10_unit_scope_destination_witness :
    ((RerollData.mk "unit" [("hits", "all")]).scope = "unit" ∧
     (ModData.mk "unit" [("hits", 1)]).scope = "unit") ∧
    (apply_reroll_effects { c1Unit with isLeader := true }
        (RerollData.mk "unit" [("hits", "all")])).leaderAuraRerolls
      = setdefaults ({ c1Unit with isLeader := true }).leaderAuraRerolls
          [("hits", "all")] ∧
    (apply_reroll_effects c1Unit
        (RerollData.mk "unit" [("hits", "all")])).unitRerolls
      = setdefaults c1Unit.unitRerolls [("hits", "all")] :=
  ⟨⟨rfl, rfl⟩,
   ((c10_unit_scope_destination { c1Unit with isLeader := true }
      (RerollData.mk "unit" [("hits", "all")])
      (ModData.mk "unit" [("hits", 1)]) rfl rfl).1 rfl).1,
   ((c10_unit_scope_destination c1Unit
      (RerollData.mk "unit" [("hits", "all")])
      (ModData.mk "unit" [("hits", 1)]) rfl rfl).2 rfl).1⟩

/-- C3 counterexample: on a unit node without an id, the output depends
on the generated `uuid` token (two token streams give outputs that differ
in the unit's id), so the transformation is not a deterministic function
of the input tree alone and two runs need not be byte-identical. -/
theorem c3_counterexample :
    (extract_units [c3NoIdSel] {} [] ["00000000"]).2.map ArmyUnit.id
      ≠ (extract_units [c3NoIdSel] {} [] ["11111111"]).2.map ArmyUnit.id := by
  decide

/-- A `create_unit` call is independent of the generated `uuid` token
whenever the node carries an id: the token is only read in the
`selection.get("id", str(uuid.uuid4())[:8])` default. -/
theorem create_unit_token_indep (sel : Selection) (t : Tables)
    (tok1 tok2 : String) (h : sel.id.isSome) :
    create_unit sel t tok1 = create_unit sel t tok2 := by
  obtain ⟨i, hi⟩ := Option.isSome_iff_exists.mp h
  unfold create_unit
  rw [hi]
  rfl

/-- The tree walk's tables and unit outputs are independent of the token
supply when every unit/model node carries an id: two walks from states
with equal tables produce equal tables and equal unit lists. -/
theorem walk_supply_independent (fuel : Nat) :
    ∀ (sels : List Selection) (t : Tables) (s1 s2 : List String)
      (parent : Option ParentCtx), selsAllIdsGo fuel sels = true →
      (extract_units_walk fuel sels { tables := t, supply := s1 } parent).1.tables
        = (extract_units_walk fuel sels { tables := t, supply := s2 } parent).1.tables ∧
      (extract_units_walk fuel sels { tables := t, supply := s1 } parent).2
        = (extract_units_walk fuel sels { tables := t, supply := s2 } parent).2 := by
  induction fuel with
  | zero =>
    intro sels t s1 s2 parent _
    simp [extract_units_walk]
  | succ fuel ih =>
    intro sels t s1 s2 parent hids
    rcases sels with _ | ⟨⟨sid, snm, sty, snum, scats, scosts, sprofs, srls, ssubs⟩, rest⟩
    · simp [extract_units_walk]
    · have hidsParts := hids
      simp only [selsAllIdsGo, Bool.and_eq_true] at hidsParts
      obtain ⟨⟨hhead, hsubs⟩, hrest⟩ := hidsParts
      simp only [extract_units_walk]
      by_cases hconf :
          is_configuration
            (Selection.mk sid snm sty snum scats scosts sprofs srls ssubs) = true
      · simp only [hconf, if_true]
        exact ih rest t s1 s2 parent hrest
      · simp only [hconf, Bool.false_eq_true, if_false]
        by_cases hum :
            is_unit_or_model
              (Selection.mk sid snm sty snum scats scosts sprofs srls ssubs) = true
        · -- unit/model node: the consumed token is irrelevant given the id
          have hid : sid.isSome := by
            have hty : sty = some "unit" ∨ sty = some "model" := by
              simpa [is_unit_or_model, decide_eq_true_eq] using hum
            rcases hty with h | h <;> simpa [h] using hhead
          have hcu :
              create_unit (Selection.mk sid snm sty snum scats scosts sprofs srls ssubs)
                  t (s1.headD "")
                = create_unit (Selection.mk sid snm sty snum scats scosts sprofs srls ssubs)
                  t (s2.headD "") :=
            create_unit_token_indep _ _ _ _ hid
          simp only [hum, if_true, hcu]
          generalize (create_unit
              (Selection.mk sid snm sty snum scats scosts sprofs srls ssubs)
              t (s2.headD "")) = cu
          obtain ⟨u0, t1⟩ := cu
          generalize (match parent with
            | some pc =>
              if !pc.isLeader ∧ u0.isLeader ∧ sty ≠ some "model" then
                register_default_attachment t1 pc.id u0
              else (t1, u0)
            | none => (t1, u0)) = tu
          obtain ⟨t2, u1⟩ := tu
          generalize (extract_weapons_abilities_rules ssubs t2 u1) = ew
          obtain ⟨u2, t3⟩ := ew
          obtain ⟨ihSubT, ihSubO⟩ :=
            ih ssubs t3 s1.tail s2.tail (some { id := u2.id, isLeader := u2.isLeader }) hsubs
          rcases hW1 : extract_units_walk fuel ssubs
              { tables := t3, supply := s1.tail }
              (some { id := u2.id, isLeader := u2.isLeader }) with ⟨stS1, nested1, models1⟩
          rcases hW2 : extract_units_walk fuel ssubs
              { tables := t3, supply := s2.tail }
              (some { id := u2.id, isLeader := u2.isLeader }) with ⟨stS2, nested2, models2⟩
          rw [hW1, hW2] at ihSubT ihSubO
          simp only [] at ihSubT ihSubO
          obtain ⟨hnested, hmodels⟩ := Prod.mk.injEq .. ▸ ihSubO
          obtain ⟨stS1t, stS1s⟩ := stS1
          obtain ⟨stS2t, stS2s⟩ := stS2
          simp only [] at ihSubT
          subst ihSubT
          obtain ⟨ihRestT, ihRestO⟩ := ih rest stS1t stS1s stS2s parent hrest
          by_cases hP : parent.isSome = true ∧ sty = some "model"
          · simp [hP, hnested, hmodels, ihRestT, ihRestO]
          · simp [hP, hnested, hmodels, ihRestT, ihRestO]
        · simp only [hum, Bool.false_eq_true, if_false]
          obtain ⟨ihSubT, ihSubO⟩ := ih ssubs t s1 s2 parent hsubs
          rcases hW1 : extract_units_walk fuel ssubs
              { tables := t, supply := s1 } parent with ⟨stC1, tops1, models1⟩
          rcases hW2 : extract_units_walk fuel ssubs
              { tables := t, supply := s2 } parent with ⟨stC2, tops2, models2⟩
          rw [hW1, hW2] at ihSubT ihSubO
          simp only [] at ihSubT ihSubO
          obtain ⟨htops, hmodels⟩ := Prod.mk.injEq .. ▸ ihSubO
          obtain ⟨stC1t, stC1s⟩ := stC1
          obtain ⟨stC2t, stC2s⟩ := stC2
          simp only [] at ihSubT
          subst ihSubT
          obtain ⟨ihRestT, ihRestO⟩ := ih rest stC1t stC1s stC2s parent hrest
          simp [htops, hmodels, ihRestT, ihRestO]

/-- C3 (amended): the transformation is a deterministic function of the
input tree together with the stream of generated `uuid` tokens; whenever
every unit/model node carries its own identifier the tokens are never
read, so two runs on the same input produce identical outputs.  (When an
identifier is absent the unit's id is the freshly generated random token,
so two runs may differ — see the counterexample.) -/
theorem c3_amended_deterministic_with_ids (sels : List Selection) (t : Tables)
    (units : List ArmyUnit) (s1 s2 : List String)
    (h : selsAllIds sels = true) :
    extract_units sels t units s1 = extract_units sels t units s2 := by
  obtain ⟨hT, hO⟩ := walk_supply_independent (sizeOf sels) sels t s1 s2 none h
  unfold extract_units extract_units_go
  rcases hW1 : extract_units_walk (sizeOf sels) sels { tables := t, supply := s1 } none
    with ⟨st1, tops1, models1⟩
  rcases hW2 : extract_units_walk (sizeOf sels) sels { tables := t, supply := s2 } none
    with ⟨st2, tops2, models2⟩
  rw [hW1, hW2] at hT hO
  simp only [] at hT hO
  obtain ⟨htops, _⟩ := Prod.mk.injEq .. ▸ hO
  simp [hT, htops]

/-- C3 witness: a one-unit tree with its id present gives identical
outputs under two different token streams. -/
theorem c3_amended_deterministic_with_ids_witness :
    selsAllIds [c3IdSel] = true ∧
    extract_units [c3IdSel] {} [] ["00000000"]
      = extract_units [c3IdSel] {} [] ["11111111"] :=
  ⟨by decide,
   c3_amended_deterministic_with_ids [c3IdSel] {} [] ["00000000"] ["11111111"]
     (by decide)⟩

/-- Every type captured by the `(hit|wound|damage)` alternation is one of
the three literals. -/
theorem tryRollType_valid {cs : List Char} {ty : String} {rest : List Char}
    (h : tryRollType cs = some (ty, rest)) :
    ty = "hit" ∨ ty = "wound" ∨ ty = "damage" := by
  unfold tryRollType at h
  split at h
  · simp only [Option.some.injEq, Prod.mk.injEq] at h
    exact Or.inl h.1.symm
  · split at h
    · simp only [Option.some.injEq, Prod.mk.injEq] at h
      exact Or.inr (Or.inl h.1.symm)
    · split at h
      · simp only [Option.some.injEq, Prod.mk.injEq] at h
        exact Or.inr (Or.inr h.1.symm)
      · exact absurd h (by simp)

/-- The type returned by a successful `rerollTail` match is one of the
three roll-type literals. -/
theorem rerollTail_valid {cs rest : List Char} {ty : String}
    (h : rerollTail cs = some (rest, ty)) :
    ty = "hit" ∨ ty = "wound" ∨ ty = "damage" := by
  unfold rerollTail at h
  split at h
  · split at h
    · rename_i heq
      split at h
      · simp only [Option.some.injEq, Prod.mk.injEq] at h
        obtain ⟨-, hty⟩ := h
        exact hty ▸ tryRollType_valid heq
      · exact absurd h (by simp)
    · exact absurd h (by simp)
  · exact absurd h (by simp)

/-- Same for the star-then-tail matcher, for any fuel. -/
theorem rerollStarTailGo_valid (fuel : Nat) :
    ∀ {cs rest : List Char} {ty : String},
      rerollStarTailGo fuel cs = some (rest, ty) →
      ty = "hit" ∨ ty = "wound" ∨ ty = "damage" := by
  induction fuel with
  | zero => intro cs rest ty h; exact rerollTail_valid h
  | succ fuel ih =>
    intro cs rest ty h
    unfold rerollStarTailGo at h
    split at h
    · split at h
      · split at h
        · rename_i heq
          simp only [Option.some.injEq] at h
          rw [h] at heq
          exact ih heq
        · exact rerollTail_valid h
      · exact rerollTail_valid h
    · exact rerollTail_valid h

/-- Same for a whole anchored `REROLL_REGEX` match. -/
theorem rerollMatchAt_valid {cs : List Char} {n : Nat} {seg : List Char}
    {ty : String} (h : rerollMatchAt cs = some (n, (seg, ty))) :
    ty = "hit" ∨ ty = "wound" ∨ ty = "damage" := by
  unfold rerollMatchAt at h
  split at h
  · split at h
    · rename_i heq
      simp only [Option.some.injEq, Prod.mk.injEq] at h
      obtain ⟨-, -, hty⟩ := h
      exact hty ▸ rerollStarTailGo_valid _ heq
    · exact absurd h (by simp)
  · exact absurd h (by simp)

/-- Every payload produced by the finditer scan satisfies any property
that all successful matches satisfy. -/
theorem scanMatchesGo_payload {α : Type} (P : α → Prop)
    (matchAt : List Char → Option (Nat × α))
    (hm : ∀ cs n a, matchAt cs = some (n, a) → P a) :
    ∀ (fuel : Nat) (cs : List Char) (a : α),
      a ∈ scanMatchesGo matchAt fuel cs → P a := by
  intro fuel
  induction fuel with
  | zero => intro cs a ha; simp [scanMatchesGo] at ha
  | succ fuel ih =>
    intro cs a ha
    match cs with
    | [] => simp [scanMatchesGo] at ha
    | c :: cs' =>
      unfold scanMatchesGo at ha
      split at ha
      · rename_i n b heq
        rcases List.mem_cons.mp ha with h | h
        · exact h ▸ hm _ _ _ heq
        · exact ih _ _ h
      · exact ih _ _ ha

/-- The reroll-effect insertion never empties a non-empty accumulator. -/
theorem rerollEffectStep_ne_nil {acc : List (String × String)}
    (h : acc ≠ []) (m : List Char × String) : rerollEffectStep acc m ≠ [] := by
  unfold rerollEffectStep
  split
  · exact h
  · split
    · exact h
    · simp

/-- A fold of reroll-effect insertions over a non-empty accumulator stays
non-empty. -/
theorem foldl_rerollEffectStep_ne_nil :
    ∀ (ms : List (List Char × String)) (acc : List (String × String)),
      acc ≠ [] → ms.foldl rerollEffectStep acc ≠ [] := by
  intro ms
  induction ms with
  | nil => intro acc h; simpa using h
  | cons m ms ih =>
    intro acc h
    simpa using ih (rerollEffectStep acc m) (rerollEffectStep_ne_nil h m)

/-- The very first match with a recognized roll type inserts an entry, so
a non-empty match list with valid types yields a non-empty effects map. -/
theorem reroll_effects_ne_nil (ms : List (List Char × String))
    (hne : ms ≠ [])
    (hv : ∀ m ∈ ms, m.2 = "hit" ∨ m.2 = "wound" ∨ m.2 = "damage") :
    ms.foldl rerollEffectStep [] ≠ [] := by
  match ms with
  | [] => exact absurd rfl hne
  | m :: ms' =>
    have hstep : rerollEffectStep [] m ≠ [] := by
      have hvm := hv m (List.mem_cons_self m ms')
      unfold rerollEffectStep
      rcases hvm with h | h | h <;> simp [h, alookup, ROLL_KEY_MAP]
    simpa using foldl_rerollEffectStep_ne_nil ms' (rerollEffectStep [] m) hstep

/-- C5 (amended): the guard of `extract_reroll_effects` requires the
literal hyphenated substring `re-roll` (case-insensitively): every
description lacking it yields no effect — even one containing `reroll`
without the hyphen, see the counterexample — and every description
containing it together with a phrase matched by `REROLL_REGEX` yields an
effect. -/
theorem c5_amended_reroll_guard (s : String) :
    (containsSub (lowerStr s.data) (strChars "re-roll") = false →
      extract_reroll_effects s = none) ∧
    (containsSub (lowerStr s.data) (strChars "re-roll") = true →
      rerollFindIter (lowerStr s.data) ≠ [] →
      (extract_reroll_effects s).isSome = true) := by
  constructor
  · intro hno
    unfold extract_reroll_effects
    by_cases hs : s = ""
    · simp [hs]
    · simp [hs, hno]
  · intro hyes hmatch
    have hs : s ≠ "" := by
      intro hs
      rw [hs] at hyes
      exact absurd hyes (by decide)
    have hvalid : ∀ m ∈ rerollFindIter (lowerStr s.data),
        m.2 = "hit" ∨ m.2 = "wound" ∨ m.2 = "damage" := by
      intro m hmem
      exact scanMatchesGo_payload
        (fun a => a.2 = "hit" ∨ a.2 = "wound" ∨ a.2 = "damage")
        rerollMatchAt
        (fun cs n a ha => by
          rcases a with ⟨seg, ty⟩
          exact rerollMatchAt_valid ha)
        _ _ m hmem
    have hne := reroll_effects_ne_nil _ hmatch hvalid
    unfold extract_reroll_effects
    rw [if_neg hs, if_neg (by simp [hyes]), if_neg hne]
    rfl

/-- C5 counterexample: the description `"You can reroll hit rolls of 1."`
contains `reroll` (hyphenless) and a phrase `REROLL_REGEX` matches, yet
`extract_reroll_effects` returns no effect, because its early-out guard
tests only for the hyphenated substring `re-roll`. -/
theorem c5_counterexample :
    containsSub (lowerStr (strChars "You can reroll hit rolls of 1."))
        (strChars "reroll") = true ∧
    rerollFindIter (lowerStr (strChars "You can reroll hit rolls of 1.")) ≠ [] ∧
    extract_reroll_effects "You can reroll hit rolls of 1." = none := by
  refine ⟨by decide, by decide, by decide⟩

/-- C5 witness: a hyphenated description with a matching phrase yields an
effect, instantiating the amended theorem. -/
theorem c5_amended_reroll_guard_witness :
    (containsSub (lowerStr (strChars "Re-roll hit rolls of 1."))
        (strChars "re-roll") = true ∧
     rerollFindIter (lowerStr (strChars "Re-roll hit rolls of 1.")) ≠ [] ∧
     (extract_reroll_effects "Re-roll hit rolls of 1.").isSome = true) ∧
    (containsSub (lowerStr (strChars "Fights first."))
        (strChars "re-roll") = false ∧
     extract_reroll_effects "Fights first." = none) :=
  ⟨⟨by decide, by decide,
    (c5_amended_reroll_guard "Re-roll hit rolls of 1.").2 (by decide) (by decide)⟩,
   ⟨by decide, (c5_amended_reroll_guard "Fights first.").1 (by decide)⟩⟩

/-! ## Association-list lemmas for the merge operations -/

theorem alookup_append_some {β : Type} {k : String} {m : List (String × β)}
    {v : β} (h : alookup k m = some v) (l : List (String × β)) :
    alookup k (m ++ l) = some v := by
  induction m with
  | nil => simp [alookup] at h
  | cons e rest ih =>
    by_cases he : e.1 = k
    · simp [alookup, he] at h ⊢
      exact h
    · simp [alookup, he] at h ⊢
      exact ih h

theorem alookup_append_none {β : Type} {k : String} {m : List (String × β)}
    (h : alookup k m = none) (l : List (String × β)) :
    alookup k (m ++ l) = alookup k l := by
  induction m with
  | nil => simp
  | cons e rest ih =>
    by_cases he : e.1 = k
    · simp [alookup, he] at h
    · simp [alookup, he] at h ⊢
      exact ih h

theorem alookup_none_not_mem_keys {β : Type} {k : String}
    {m : List (String × β)} (h : alookup k m = none) :
    k ∉ m.map Prod.fst := by
  induction m with
  | nil => simp
  | cons e rest ih =>
    by_cases he : e.1 = k
    · simp [alookup, he] at h
    · simp only [alookup, he, if_false] at h
      simp only [List.map_cons, List.mem_cons]
      rintro (hk | hk)
      · exact he hk.symm
      · exact ih h hk

theorem setdefaults_isSome_mono {k : String} :
    ∀ (eff : List (String × String)) (m : List (String × String)),
      (alookup k m).isSome = true →
      (alookup k (setdefaults m eff)).isSome = true := by
  intro eff
  induction eff with
  | nil => intro m h; simpa [setdefaults] using h
  | cons e rest ih =>
    intro m h
    have hstep : (alookup k
        (if (alookup e.1 m).isSome then m else m ++ [e])).isSome = true := by
      split
      · exact h
      · obtain ⟨v, hv⟩ := Option.isSome_iff_exists.mp h
        simp [alookup_append_some hv]
    simpa [setdefaults] using ih _ hstep

theorem setdefaults_covers :
    ∀ (eff : List (String × String)) (m : List (String × String)) (e : String × String),
      e ∈ eff → (alookup e.1 (setdefaults m eff)).isSome = true := by
  intro eff
  induction eff with
  | nil => intro m e h; simp at h
  | cons e0 rest ih =>
    intro m e he
    have hunf : setdefaults m (e0 :: rest)
        = setdefaults (if (alookup e0.1 m).isSome then m else m ++ [e0]) rest := rfl
    rw [hunf]
    rcases List.mem_cons.mp he with h | h
    · subst h
      apply setdefaults_isSome_mono rest
      by_cases hin : (alookup e.1 m).isSome = true
      · rw [if_pos hin]
        exact hin
      · rw [if_neg hin]
        rw [alookup_append_none (Option.not_isSome_iff_eq_none.mp hin)]
        simp [alookup]
    · exact ih _ e h

theorem setdefaults_noop :
    ∀ (eff : List (String × String)) (m : List (String × String)),
      (∀ e ∈ eff, (alookup e.1 m).isSome = true) → setdefaults m eff = m := by
  intro eff
  induction eff with
  | nil => intro m _; rfl
  | cons e rest ih =>
    intro m h
    have he := h e (List.mem_cons_self e rest)
    have hrest : ∀ x ∈ rest, (alookup x.1 m).isSome = true :=
      fun x hx => h x (List.mem_cons_of_mem e hx)
    show List.foldl _ (if (alookup e.1 m).isSome then m else m ++ [e]) rest = m
    rw [if_pos he]
    exact ih m hrest

/-- Re-applying `setdefaults` with the same effects is a no-op. -/
theorem setdefaults_idem (m : List (String × String))
    (eff : List (String × String)) :
    setdefaults (setdefaults m eff) eff = setdefaults m eff :=
  setdefaults_noop eff _ (fun e he => setdefaults_covers eff m e he)

theorem alookup_map_bump (k : String) (v : Int) :
    ∀ (m : List (String × Int)) (k0 : String),
      alookup k0 (m.map (fun e => if e.1 = k then (e.1, e.2 + v) else e))
        = (alookup k0 m).map (fun w => if k0 = k then w + v else w) := by
  intro m
  induction m with
  | nil => intro k0; rfl
  | cons e rest ih =>
    intro k0
    by_cases hek : e.1 = k <;> by_cases hek0 : e.1 = k0
    · have hkk : k0 = k := hek0.symm.trans hek
      simp [alookup, hek, hek0, hkk]
    · have hk0 : ¬ k = k0 := fun hc => hek0 (hek.trans hc)
      simp [alookup, hek, hek0, hk0, ih]
    · have hkk : ¬ k0 = k := fun hc => hek (hek0.trans hc)
      simp [alookup, hek, hek0, hkk]
    · simp [alookup, hek, hek0, ih]

theorem bumpKey_lookup0 (m : List (String × Int)) (k : String) (v : Int)
    (k0 : String) :
    lookup0 (bumpKey m k v) k0 = lookup0 m k0 + (if k0 = k then v else 0) := by
  unfold bumpKey
  rcases h : alookup k m with _ | w
  · by_cases hk : k0 = k
    · subst hk
      simp only [lookup0, alookup_append_none h]
      simp [alookup, h]
    · rcases h0 : alookup k0 m with _ | w0
      · simp only [lookup0, alookup_append_none h0]
        simp [alookup, h0, hk, Ne.symm hk]
      · simp only [lookup0, alookup_append_some h0]
        simp [h0, hk]
  · simp only [lookup0, alookup_map_bump]
    rcases h0 : alookup k0 m with _ | w0
    · by_cases hk : k0 = k
      · subst hk
        rw [h0] at h
        exact absurd h (by simp)
      · simp [h0, hk]
    · by_cases hk : k0 = k <;> simp [h0, hk]

theorem bumpAll_lookup0 :
    ∀ (eff : List (String × Int)) (m : List (String × Int)) (k : String),
      lookup0 (bumpAll m eff) k = lookup0 m k + sumEff eff k := by
  intro eff
  induction eff with
  | nil => intro m k; simp [bumpAll, sumEff]
  | cons kv rest ih =>
    intro m k
    have : bumpAll m (kv :: rest) = bumpAll (bumpKey m kv.1 kv.2) rest := rfl
    rw [this, ih, bumpKey_lookup0, sumEff]
    by_cases hk : k = kv.1
    · simp [hk]
      omega
    · simp [hk]

/-- C9: re-applying the same mined reroll effect is the identity on the
unit (first-writer-wins `setdefault` merging is idempotent), while
re-applying the same mined numeric-modifier effect doubles every stored
magnitude relative to a single application onto a unit with no prior
modifiers (summation is additive, not idempotent). -/
theorem c9_reapply_reroll_idem_modifier_additive (u : ArmyUnit)
    (rd : RerollData) (md : ModData)
    (h1 : u.unitModifiers = []) (h2 : u.leaderAuraModifiers = []) :
    apply_reroll_effects (apply_reroll_effects u rd) rd
      = apply_reroll_effects u rd ∧
    (∀ k : String,
      lookup0 (apply_modifier_effects (apply_modifier_effects u md) md).unitModifiers k
        = 2 * lookup0 (apply_modifier_effects u md).unitModifiers k ∧
      lookup0 (apply_modifier_effects (apply_modifier_effects u md) md).leaderAuraModifiers k
        = 2 * lookup0 (apply_modifier_effects u md).leaderAuraModifiers k) := by
  constructor
  · unfold apply_reroll_effects
    by_cases hc : rd.scope = "unit" ∧ u.isLeader = true
    · simp [hc.1, hc.2, setdefaults_idem]
    · rcases Decidable.not_and_iff_or_not.mp hc with h | h
      · simp [h, setdefaults_idem]
      · have hL : u.isLeader = false := by
          revert h
          cases u.isLeader <;> simp
        by_cases hsc : rd.scope = "unit"
        · simp [hsc, hL, setdefaults_idem]
        · simp [hsc, hL, setdefaults_idem]
  · intro k
    unfold apply_modifier_effects
    by_cases hc : md.scope = "unit" ∧ u.isLeader = true
    · simp only [hc.1, hc.2, and_self, if_true, true_and]
      constructor
      · simp [lookup0, h1, alookup]
      · dsimp only
        rw [h2, bumpAll_lookup0, bumpAll_lookup0]
        simp [lookup0, alookup, two_mul]
    · have hcond : ¬(md.scope = "unit" ∧ u.isLeader) := by
        intro hx
        exact hc ⟨hx.1, hx.2⟩
      simp only [if_neg hcond]
      constructor
      · dsimp only
        rw [h1, bumpAll_lookup0, bumpAll_lookup0]
        simp [lookup0, alookup, two_mul]
      · simp [lookup0, h2, alookup]

/-- C9 witness: at a fresh unit, with a concrete reroll and modifier
effect, the second application leaves the rerolls unchanged and doubles
the modifier. -/
theorem c9_reapply_witness :
    c1Unit.unitModifiers = [] ∧ c1Unit.leaderAuraModifiers = [] ∧
    apply_reroll_effects (apply_reroll_effects c1Unit ⟨"self", [("hits", "ones")]⟩)
        ⟨"self", [("hits", "ones")]⟩
      = apply_reroll_effects c1Unit ⟨"self", [("hits", "ones")]⟩ ∧
    lookup0 (apply_modifier_effects
        (apply_modifier_effects c1Unit ⟨"self", [("hits", 1)]⟩)
        ⟨"self", [("hits", 1)]⟩).unitModifiers "hits"
      = 2 * lookup0 (apply_modifier_effects c1Unit
          ⟨"self", [("hits", 1)]⟩).unitModifiers "hits" :=
  ⟨rfl, rfl,
   (c9_reapply_reroll_idem_modifier_additive c1Unit ⟨"self", [("hits", "ones")]⟩
      ⟨"self", [("hits", 1)]⟩ rfl rfl).1,
   ((c9_reapply_reroll_idem_modifier_additive c1Unit ⟨"self", [("hits", "ones")]⟩
      ⟨"self", [("hits", 1)]⟩ rfl rfl).2 "hits").1⟩

/-- C7: `add_rule` and `add_ability` are idempotent insert-or-fetch
operations.  A non-dict input or an input whose id is `None` or empty
yields no id and leaves the table untouched; an id already in the table
is returned with the whole table (hence every stored field) unchanged;
a new id appends the normalized record (placeholder name, description
defaulted — for a rule also `hidden := false` when absent); re-running
the same registration is a no-op; and appending a fresh id preserves
key uniqueness, so each identifier occurs in its table exactly once no
matter how many nodes reference it. -/
theorem c7_registration_idempotent (t : Tables) (r : RuleStub) (p : Profile) :
    (add_rule none t = (none, t)) ∧
    (add_ability none t = (none, t)) ∧
    (r.id = none → add_rule (some r) t = (none, t)) ∧
    (r.id = some "" → add_rule (some r) t = (none, t)) ∧
    (p.id = none → add_ability (some p) t = (none, t)) ∧
    (p.id = some "" → add_ability (some p) t = (none, t)) ∧
    (∀ i, r.id = some i → i ≠ "" → (alookup i t.rules).isSome = true →
      add_rule (some r) t = (some i, t)) ∧
    (∀ i, r.id = some i → i ≠ "" → alookup i t.rules = none →
      add_rule (some r) t = (some i,
        { t with rules := t.rules ++
            [(i, { id := i, name := r.name.getD "Unnamed Rule",
                   description := r.description.getD "",
                   hidden := r.hidden.getD false })] })) ∧
    (∀ i, p.id = some i → i ≠ "" → (alookup i t.abilities).isSome = true →
      add_ability (some p) t = (some i, t)) ∧
    (∀ i, p.id = some i → i ≠ "" → alookup i t.abilities = none →
      add_ability (some p) t = (some i,
        { t with abilities := t.abilities ++
            [(i, { id := i, name := p.name.getD "Unnamed Ability",
                   description := extract_profile_description p })] })) ∧
    (add_rule (some r) (add_rule (some r) t).2
      = ((add_rule (some r) t).1, (add_rule (some r) t).2)) ∧
    (add_ability (some p) (add_ability (some p) t).2
      = ((add_ability (some p) t).1, (add_ability (some p) t).2)) ∧
    ((((t.rules.map Prod.fst).Nodup) →
      (((add_rule (some r) t).2.rules.map Prod.fst).Nodup)) ∧
     (((t.abilities.map Prod.fst).Nodup) →
      (((add_ability (some p) t).2.abilities.map Prod.fst).Nodup))) := by
  refine ⟨rfl, rfl, ?_, ?_, ?_, ?_, ?_, ?_, ?_, ?_, ?_, ?_, ?_, ?_⟩
  · intro h
    simp [add_rule, h]
  · intro h
    simp [add_rule, h]
  · intro h
    simp [add_ability, h]
  · intro h
    simp [add_ability, h]
  · intro i hi hne hin
    simp [add_rule, hi, hne, hin]
  · intro i hi hne hout
    simp [add_rule, hi, hne, hout]
  · intro i hi hne hin
    simp [add_ability, hi, hne, hin]
  · intro i hi hne hout
    simp [add_ability, hi, hne, hout]
  · -- idempotence of rule registration
    rcases hid : r.id with _ | i
    · simp [add_rule, hid]
    · by_cases hne : i = ""
      · simp [add_rule, hid, hne]
      · rcases hin : alookup i t.rules with _ | v
        · simp only [add_rule, hid, hne, if_neg hne, hin, Option.isSome_none,
            Bool.false_eq_true, if_false]
          have : (alookup i (t.rules ++
              [(i, { id := i, name := r.name.getD "Unnamed Rule",
                     description := r.description.getD "",
                     hidden := r.hidden.getD false })])).isSome = true := by
            rw [alookup_append_none hin]
            simp [alookup]
          simp [this]
        · simp [add_rule, hid, hne, hin]
  · -- idempotence of ability registration
    rcases hid : p.id with _ | i
    · simp [add_ability, hid]
    · by_cases hne : i = ""
      · simp [add_ability, hid, hne]
      · rcases hin : alookup i t.abilities with _ | v
        · simp only [add_ability, hid, hne, if_neg hne, hin, Option.isSome_none,
            Bool.false_eq_true, if_false]
          have : (alookup i (t.abilities ++
              [(i, { id := i, name := p.name.getD "Unnamed Ability",
                     description := extract_profile_description p })])).isSome
              = true := by
            rw [alookup_append_none hin]
            simp [alookup]
          simp [this]
        · simp [add_ability, hid, hne, hin]
  · -- key uniqueness is preserved
    intro hnd
    rcases hid : r.id with _ | i
    · simpa [add_rule, hid] using hnd
    · by_cases hne : i = ""
      · simpa [add_rule, hid, hne] using hnd
      · rcases hin : alookup i t.rules with _ | v
        · have hnotin := alookup_none_not_mem_keys hin
          simp only [add_rule, hid, hne, if_neg hne, hin, Option.isSome_none,
            Bool.false_eq_true, if_false]
          simpa using List.Nodup.append hnd (by simp)
            (by simpa [List.disjoint_left] using fun hmem => hnotin hmem)
        · simpa [add_rule, hid, hne, hin] using hnd
  · intro hnd
    rcases hid : p.id with _ | i
    · simpa [add_ability, hid] using hnd
    · by_cases hne : i = ""
      · simpa [add_ability, hid, hne] using hnd
      · rcases hin : alookup i t.abilities with _ | v
        · have hnotin := alookup_none_not_mem_keys hin
          simp only [add_ability, hid, hne, if_neg hne, hin, Option.isSome_none,
            Bool.false_eq_true, if_false]
          simpa using List.Nodup.append hnd (by simp)
            (by simpa [List.disjoint_left] using fun hmem => hnotin hmem)
        · simpa [add_ability, hid, hne, hin] using hnd

/-- C7 witness: a concrete table with one rule — re-registering the
existing id returns it with the table unchanged, a fresh id is inserted
once, and an id-less stub yields no id. -/
theorem c7_registration_idempotent_witness :
    (alookup "r1" [("r1", RuleRec.mk "r1" "Oath" "desc" false)]).isSome = true ∧
    add_rule (some (RuleStub.mk (some "r1") (some "Oath2") none none))
        { rules := [("r1", RuleRec.mk "r1" "Oath" "desc" false)] }
      = (some "r1", { rules := [("r1", RuleRec.mk "r1" "Oath" "desc" false)] }) ∧
    add_rule (some (RuleStub.mk none none none none))
        { rules := [("r1", RuleRec.mk "r1" "Oath" "desc" false)] }
      = (none, { rules := [("r1", RuleRec.mk "r1" "Oath" "desc" false)] }) :=
  ⟨by decide,
   (c7_registration_idempotent
      { rules := [("r1", RuleRec.mk "r1" "Oath" "desc" false)] }
      (RuleStub.mk (some "r1") (some "Oath2") none none)
      (Profile.mk none none none [])).2.2.2.2.2.2.1 "r1" rfl (by decide) (by decide),
   (c7_registration_idempotent
      { rules := [("r1", RuleRec.mk "r1" "Oath" "desc" false)] }
      (RuleStub.mk none none none none)
      (Profile.mk none none none [])).2.2.1 rfl⟩

end W40K
